import Mathlib

/-!
Verification development for the MASQUE automated program repair pipeline.

Shallow embedding of the pipeline's decision/verification logic:
* JSON-ish values with Python truthiness and the `_as_bool` coercion
  (`src/Agents/run_bug_supervision.py`),
* the structured-response recovery text transformation shared by
  `_clean_json` (`bug_fix_agent.py`), `_extract_json` (`supervisor_agent.py`)
  and `_extract_json_from_text` (`run_bug_supervision.py`), plus the variant
  `extract_json_from_text` (`fix_from_report.py`),
* bug-report normalization (`_normalize_bug_report`),
* the decision fusion of detector/reviewer signals,
* `BugFixAgent.fix_bug` over an explicit file-system state,
* `UnitTestEvaluationAgent.evaluate` runner selection and error codes,
* `GitPushAgent.commit`.

External effects (the OpenAI client, `json.loads`, the file system, and
subprocess execution) are modelled as explicit parameters; everything the
repository's own code computes is translated directly from the source.
-/

namespace Masque

/-! ## Python-style text primitives (over `List Char`) -/

/-- ASCII whitespace recognized by Python's `str.strip` / regex `\s`
(restricted to the ASCII range, which is all the pipeline manipulates). -/
def isPySpace (c : Char) : Bool :=
  c = ' ' || c = '\t' || c = '\n' || c = '\r' || c = '\x0b' || c = '\x0c'

/-- ASCII letter, for the regex class `[a-zA-Z]`. -/
def isAsciiAlpha (c : Char) : Bool :=
  ('a' ≤ c && c ≤ 'z') || ('A' ≤ c && c ≤ 'Z')

/-- Drop trailing Python whitespace (right half of `str.strip`). -/
def dropTrailing (cs : List Char) : List Char :=
  (cs.reverse.dropWhile isPySpace).reverse

/-- Python `str.strip()`. -/
def pyStrip (cs : List Char) : List Char :=
  dropTrailing (cs.dropWhile isPySpace)

/-- Python `str.strip()` at `String` type. -/
def strStrip (s : String) : String :=
  String.mk (pyStrip s.data)

/-! ## JSON-ish values

Models the Python values flowing between the agents: the results of
`json.loads`, the bug-report dictionaries, and the supervisor reviews.
Numbers are modelled as integers (the flags the pipeline coerces are
booleans, integers or strings). -/

inductive JVal where
  | jnull : JVal
  | jbool : Bool → JVal
  | jnum : Int → JVal
  | jstr : String → JVal
  | jarr : List JVal → JVal
  | jobj : List (String × JVal) → JVal

/-- Python truthiness (`bool(v)`) for the modelled values. -/
def pyBool : JVal → Bool
  | .jnull => false
  | .jbool b => b
  | .jnum n => n ≠ 0
  | .jstr s => s ≠ ""
  | .jarr xs => !xs.isEmpty
  | .jobj fs => !fs.isEmpty

/-- Python `d.get(k, default)` on a modelled dictionary; returns the
default when the value is not a dictionary (callers guard with
`isinstance` where the source does). -/
def jgetD (v : JVal) (k : String) (d : JVal) : JVal :=
  match v with
  | .jobj fs => (fs.lookup k).getD d
  | _ => d

/-- `True` exactly on dictionary values (`isinstance(v, dict)`). -/
def jIsObj : JVal → Bool
  | .jobj _ => true
  | _ => false

/-- Assignment on an association list: replace the first binding of `k`,
or append one (Python `d[k] = x`). -/
def setKey (k : String) (x : JVal) : List (String × JVal) → List (String × JVal)
  | [] => [(k, x)]
  | (k', v') :: rest => if k' = k then (k, x) :: rest else (k', v') :: setKey k x rest

/-- Python `d[k] = x` on a modelled dictionary (identity on non-dictionaries;
the source only assigns on values it has checked to be dictionaries). -/
def jset (v : JVal) (k : String) (x : JVal) : JVal :=
  match v with
  | .jobj fs => .jobj (setKey k x fs)
  | other => other

/-- `_as_bool` from `run_bug_supervision.py`: uniform coercion of
booleans, numbers and strings to a boolean; anything else is `False`. -/
def as_bool : JVal → Bool
  | .jbool b => b
  | .jnum n => n ≠ 0
  | .jstr s =>
    let t := (strStrip s).toLower
    t = "true" || t = "1" || t = "yes" || t = "y"
  | _ => false

/-! ## Structured-response recovery

The fence-stripping / brace-slicing transformation is written out four
times in the source with identical text
(`_clean_json`, `_strip_code_fences` without the slicing,
`_extract_json`, `_extract_json_from_text`); it is defined once here. -/

/-- Effect of `re.sub(r"^```[a-zA-Z]*\s*\n", "", t)`: when the text starts
with a backtick fence, drop the fence, the language tag, and the following
whitespace run up to and including its last newline (the regex requires at
least one newline in that run to match). -/
def stripOpenFence (cs : List Char) : List Char :=
  match cs with
  | '`' :: '`' :: '`' :: rest =>
    let afterLetters := rest.dropWhile isAsciiAlpha
    let ws := afterLetters.takeWhile isPySpace
    if '\n' ∈ ws then
      (ws.reverse.takeWhile (fun c => c ≠ '\n')).reverse ++ afterLetters.drop ws.length
    else cs
  | _ => cs

/-- Effect of `re.sub(r"\n```$", "", t)` on text already stripped of
trailing whitespace: drop a final newline-plus-fence if present (the text
ends with the four characters of a fence line exactly when its reversal
starts with them reversed). -/
def stripCloseFence (cs : List Char) : List Char :=
  if ['`', '`', '`', '\n'].isPrefixOf cs.reverse then (cs.reverse.drop 4).reverse else cs

/-- `_strip_code_fences` from `bug_fix_agent.py` (also the first half of
the three `_clean_json`-style helpers): trim, and if the text starts with
a fence, remove the opening and closing fence lines and trim again. -/
def strip_code_fences (cs : List Char) : List Char :=
  let t := pyStrip cs
  if ['`', '`', '`'].isPrefixOf t then pyStrip (stripCloseFence (stripOpenFence t))
  else t

/-- Slice from the first `{` through the last `}` — the effect of
`start = t.find("{"); end = t.rfind("}"); t[start:end+1]` guarded by
`start != -1 and end != -1 and end > start`.  Returns `none` when that
guard fails (no `{`, or no `}` strictly after the first `{`). -/
def braceSlice (t : List Char) : Option (List Char) :=
  match t.dropWhile (fun c => c ≠ '{') with
  | [] => none
  | c :: rest =>
    if '}' ∈ rest then some (((c :: rest).reverse.dropWhile (fun ch => ch ≠ '}')).reverse)
    else none

/-- The candidate text produced by `_clean_json` (`bug_fix_agent.py`),
`_extract_json` (`supervisor_agent.py`) and `_extract_json_from_text`
(`run_bug_supervision.py`): fence-strip, then slice the brace span if one
exists, otherwise return the trimmed text as-is. -/
def extract_json_candidate (cs : List Char) : List Char :=
  (braceSlice (strip_code_fences cs)).getD (strip_code_fences cs)

/-- `extract_json_from_text` from `fix_from_report.py`.  Unlike the three
candidate-producing helpers it decodes itself and returns `none` (rather
than the trimmed text) when no brace span exists.  `jsonDecode` models
`json.loads` (with `none` for a raised `JSONDecodeError`). -/
def extract_json_from_text (jsonDecode : List Char → Option JVal) (text : String) :
    Option JVal :=
  if text = "" then none
  else
    match braceSlice (strip_code_fences text.data) with
    | none => none
    | some candidate => jsonDecode candidate

/-! ## Decision fusion (`run_bug_supervision.main`, lines 228–231) -/

/-- The fused "bug exists" verdict: `confirmed_bug OR corrected_has_bug OR
has_bug`, each coerced through `_as_bool`, with the reviewer fields
guarded by `isinstance(review, dict)`. -/
def bug_exists (review bug_report : JVal) : Bool :=
  let confirmed := jIsObj review && as_bool (jgetD review "confirmed_bug" (.jbool false))
  let corrected := jIsObj review && as_bool (jgetD review "corrected_has_bug" (.jbool false))
  let detector := as_bool (jgetD bug_report "has_bug" (.jbool false))
  confirmed || corrected || detector

/-! ## Bug-report normalization (`_normalize_bug_report`, run_bug_supervision.py)

Returns `none` where the Python code would raise an uncaught exception
(a truthy non-string `raw_response_text` reaches `.strip()` outside the
`try` block). -/

/-- `_normalize_bug_report`: prefer `entry["bug_report"]`; when it carries a
truthy `error` together with a truthy `raw_response_text`, run the recoverer
again on that raw text; on successful decoding, carry a truthy
`code_excerpt` forward into the recovered record when the recovered record
lacks one.  Decoding failure — or a non-dictionary recovered value reached
by the excerpt check — falls back to the original report (the `except`
branch). -/
def normalize_bug_report (jsonDecode : List Char → Option JVal) (entry : JVal) :
    Option JVal :=
  let br0 := jgetD entry "bug_report" .jnull
  let bug_report := if pyBool br0 then br0 else .jobj []
  match bug_report with
  | .jobj flds =>
    if pyBool (jgetD (.jobj flds) "error" .jnull) &&
        pyBool (jgetD (.jobj flds) "raw_response_text" .jnull) then
      match jgetD (.jobj flds) "raw_response_text" .jnull with
      | .jstr raw =>
        match jsonDecode (extract_json_candidate raw.data) with
        | none => some (.jobj flds)
        | some recovered =>
          if pyBool (jgetD (.jobj flds) "code_excerpt" .jnull) then
            match recovered with
            | .jobj rflds =>
              if pyBool (jgetD (.jobj rflds) "code_excerpt" .jnull) then some (.jobj rflds)
              else some (jset (.jobj rflds) "code_excerpt"
                (jgetD (.jobj flds) "code_excerpt" .jnull))
            | _ => some (.jobj flds)
          else some recovered
      | _ => none
    else some (.jobj flds)
  | _ => some (.jobj [])

/-! ## Fix application (`BugFixAgent.fix_bug`, bug_fix_agent.py)

The file system is a partial map from paths to file bodies.  The OpenAI
call is a parameter (`LLMOutcome`), `json.loads` is a parameter
(`jsonDecode`), and the cryptographic fingerprint `_sha256` is an
arbitrary parameter `hash` — the source only ever compares fingerprints
for equality.  `target.write_text` may silently fail to take effect
(read-only target, truncation): its observable result is modelled by
`writeEff old intended`, the body actually on disk after the call.  The
two `shutil.copyfile` calls raise on failure in the source (no silent
path), so they are modelled as reliable writes. -/

/-- A file system: path to file body. -/
def FS : Type := String → Option String

/-- Overwrite one path. -/
def fsWrite (fs : FS) (p : String) (c : String) : FS :=
  fun q => if q = p then some c else fs q

/-- Outcome of the `client.responses.create` call plus text extraction:
either a raised exception or some response text. -/
inductive LLMOutcome where
  | apiError : String → LLMOutcome
  | response : String → LLMOutcome

/-- The `status` values `fix_bug` can return (the `error` statuses are
split by their cause). -/
inductive FixStatus where
  | errMissingPath
  | errNoFile
  | errParse
  | errApi
  | skipped
  | noFixedCode
  | noChange
  | dryRun
  | writeFailed
  | patched
deriving DecidableEq

/-- Modelled from the spec: the `FixResult` tagged variant of the data
model (§3), with the reasons §4.3 assigns.  The spec has no variant for a
missing file path, a missing file, or a dry run. -/
inductive SpecFixResult where
  | Patched
  | NoChange
  | WriteFailed
  | Skipped
  | ParseError : String → SpecFixResult
  | ApiError
deriving DecidableEq

/-- Modelled from the spec: the correspondence §4.3 establishes between
the code's `status` strings and the spec's `FixResult` variants
(`no_fixed_code` is the "`ParseError`(\"no fixed code produced\")" case of
the preconditions; `no_change` is `NoChange`; `write_failed` is
`WriteFailed`; a JSON-parse failure of the model response is the other
`ParseError`; an API failure is `ApiError`). -/
def specFixResult : FixStatus → Option SpecFixResult
  | .errMissingPath => none
  | .errNoFile => none
  | .errParse => some (.ParseError "could not parse JSON from model")
  | .errApi => some .ApiError
  | .skipped => some .Skipped
  | .noFixedCode => some (.ParseError "no fixed code produced")
  | .noChange => some .NoChange
  | .dryRun => none
  | .writeFailed => some .WriteFailed
  | .patched => some .Patched

/-- Line 135 of `bug_fix_agent.py`:
`fixed_code = _strip_code_fences((fix_plan or {}).get("fixed_code", "") or "")`.
`none` models the uncaught `AttributeError` when `fix_plan` is a truthy
non-dictionary, or the uncaught error when `fixed_code` is a truthy
non-string. -/
def fixedCodeOf (fix_plan : JVal) : Option String :=
  let planD := if pyBool fix_plan then fix_plan else .jobj []
  match planD with
  | .jobj flds =>
    let fc0 := jgetD (.jobj flds) "fixed_code" (.jstr "")
    let fcv := if pyBool fc0 then fc0 else .jstr ""
    match fcv with
    | .jstr s => some (String.mk (strip_code_fences s.data))
    | _ => none
  | _ => none

/-- `BugFixAgent.fix_bug`.  Returns the final status, the resulting file
system, and whether the reasoning service was invoked; `none` models an
uncaught exception.  The backup path is `file_path + ".bak"`
(`target.with_suffix(target.suffix + ".bak")` appends `.bak` to the
existing suffix). -/
def fix_bug (hash : String → String) (jsonDecode : List Char → Option JVal)
    (writeEff : String → String → String) (fs : FS) (llm : LLMOutcome)
    (bug_report : JVal) (dry_run : Bool) : Option (FixStatus × FS × Bool) :=
  let fp := jgetD bug_report "file_path" .jnull
  if pyBool fp then
    match fp with
    | .jstr path =>
      match fs path with
      | none => some (.errNoFile, fs, false)
      | some original_code =>
        let original_hash := hash original_code
        let has_bug := pyBool (jgetD bug_report "has_bug" (.jbool false))
        if has_bug then
          match llm with
          | .apiError _ => some (.errApi, fs, true)
          | .response text =>
            match jsonDecode (extract_json_candidate text.data) with
            | none => some (.errParse, fs, true)
            | some fix_plan =>
              match fixedCodeOf fix_plan with
              | none => none
              | some fixed_code =>
                if (pyStrip fixed_code.data).isEmpty then some (.noFixedCode, fs, true)
                else
                  let fixed_hash := hash fixed_code
                  if fixed_hash = original_hash then some (.noChange, fs, true)
                  else if dry_run then some (.dryRun, fs, true)
                  else
                    let backup_path := path ++ ".bak"
                    let fs1 := fsWrite fs backup_path original_code
                    let on_disk := writeEff original_code fixed_code
                    let fs2 := fsWrite fs1 path on_disk
                    let on_disk_hash := hash on_disk
                    if on_disk_hash = original_hash then
                      let fs3 := fsWrite fs2 path ((fs2 backup_path).getD "")
                      some (.writeFailed, fs3, true)
                    else some (.patched, fs2, true)
        else some (.skipped, fs, false)
    | _ => none
  else some (.errMissingPath, fs, false)

/-! ## Unit test evaluation (`UnitTestEvaluationAgent`, unit_test_evaluation_agent.py)

Path manipulation (`Path.stem`, `.name`, `.parent`) is modelled over plain
strings with `/` separators; `.resolve()` is the identity (the model's
paths are already absolute).  The subprocess boundary is a parameter. -/

/-- Substring test (Python `needle in text`). -/
def containsSub (needle : List Char) : List Char → Bool
  | [] => needle.isEmpty
  | c :: rest => needle.isPrefixOf (c :: rest) || containsSub needle rest

/-- Try a position-anchored matcher at the start of the text and after
every newline — the effect of `re.search(..., flags=re.MULTILINE)` with a
pattern anchored by `^`. -/
def afterNewline (p : List Char → Bool) : List Char → Bool
  | [] => false
  | c :: rest => (c = '\n' && p rest) || afterNewline p rest

/-- Search a `^`-anchored matcher over all line starts. -/
def multilineMatch (p : List Char → Bool) (cs : List Char) : Bool :=
  p cs || afterNewline p cs

/-- Matcher for `\s*def\s+test` at a line start (the body of the pattern
`^\s*def\s+test`; `\s` may cross line boundaries). -/
def matchDefTest (cs : List Char) : Bool :=
  let r := cs.dropWhile isPySpace
  if ['d', 'e', 'f'].isPrefixOf r then
    match r.drop 3 with
    | c :: rest => isPySpace c && ['t', 'e', 's', 't'].isPrefixOf ((c :: rest).dropWhile isPySpace)
    | [] => false
  else false

/-- Matcher for `\s*from\s+\.\.?\S*\s+import\s+` at a line start (the body
of the relative-import pattern; `\.\.?\S*` is one dot followed by a
non-space run). -/
def matchRelImport (cs : List Char) : Bool :=
  let r := cs.dropWhile isPySpace
  if ['f', 'r', 'o', 'm'].isPrefixOf r then
    match r.drop 4 with
    | c :: rest =>
      isPySpace c &&
        (match (c :: rest).dropWhile isPySpace with
        | '.' :: r4 =>
          match r4.dropWhile (fun ch => !isPySpace ch) with
          | d :: rest2 =>
            isPySpace d &&
              (let r6 := (d :: rest2).dropWhile isPySpace
              ['i', 'm', 'p', 'o', 'r', 't'].isPrefixOf r6 &&
                (match r6.drop 6 with
                | e :: _ => isPySpace e
                | [] => false))
          | [] => false
        | _ => false)
    | [] => false
  else false

/-- `_looks_like_relative_import_test`. -/
def looks_like_relative_import_test (text : List Char) : Bool :=
  multilineMatch matchRelImport text

/-- Python `s.startswith(pre)` over the character lists. -/
def strStarts (s pre : String) : Bool :=
  pre.data.isPrefixOf s.data

/-- Python `s.endswith(suf)` over the character lists. -/
def strEnds (s suf : String) : Bool :=
  suf.data.reverse.isPrefixOf s.data.reverse

/-- `_looks_like_pytest_test` (`fileName` is `test_file.name`). -/
def looks_like_pytest_test (text : List Char) (fileName : String) : Bool :=
  containsSub "import pytest".data text ||
    multilineMatch matchDefTest text ||
    strStarts fileName "test_" || strEnds fileName "_test.py"

/-- The runner decision of `evaluate` (lines 152–161): pytest first, then
relative-import module execution, then plain file execution. -/
def decideRunner (text : List Char) (fileName : String) : String :=
  if looks_like_pytest_test text fileName then "pytest"
  else if looks_like_relative_import_test text then "python-module"
  else "python-file"

/-- Final path component (`Path.name`). -/
def basenameOf (p : String) : String :=
  String.mk ((p.data.reverse.takeWhile (fun c => c ≠ '/')).reverse)

/-- `Path.name` minus its final suffix (`Path.stem`): the suffix starts at
the last dot when that dot is neither the first nor the last character of
the name. -/
def stemOf (name : String) : String :=
  let cs := name.data
  match cs.reverse.findIdx? (fun c => c = '.') with
  | none => name
  | some rIdx =>
    let i := cs.length - 1 - rIdx
    if 0 < i ∧ i < cs.length - 1 then String.mk (cs.take i) else name

/-- `Path.parent` on the string model. -/
def parentOf (p : String) : String :=
  match p.data.reverse.dropWhile (fun c => c ≠ '/') with
  | [] => "."
  | _ :: rest => if rest.isEmpty then "/" else String.mk rest.reverse

/-- Result of a subprocess run: completion with an exit code, or a
`TimeoutExpired` with partial output. -/
inductive ProcOutcome where
  | timedOut : String → String → ProcOutcome
  | done : Int → String → String → ProcOutcome

/-- The operating-system boundary of the evaluation agent: path
existence, file reading, and subprocess execution. -/
structure SysEnv where
  pathExists : String → Bool
  readFile : String → List Char
  runProc : List String → ProcOutcome

/-- Constructor arguments of `UnitTestEvaluationAgent`. -/
structure UTAgent where
  repo_root : String
  tests_dir : String
  timeout_seconds : Nat

/-- The `UnitTestEvalResult` dataclass. -/
structure UnitTestEvalResult where
  scanned_file : String
  test_file : String
  runner : String
  passed : Bool
  exit_code : Int
  stdout : String
  stderr : String
  notes : String
deriving DecidableEq

/-- The while loop of `_module_name_for_file`: walk parent directories
that carry `__init__.py`, collecting names; fuel bounds the walk (the
source's loop steps toward the root). -/
def moduleWalk (env : SysEnv) (repo_root : String) :
    Nat → String → List String → String × List String
  | 0, cur, parts => (cur, parts)
  | Nat.succ fuel, cur, parts =>
    if cur ≠ repo_root && env.pathExists (cur ++ "/__init__.py") then
      moduleWalk env repo_root fuel (parentOf cur) (parts ++ [basenameOf cur])
    else (cur, parts)

/-- `_module_name_for_file`: dotted module path for `python -m ...`. -/
def module_name_for (env : SysEnv) (repo_root : String) (file : String) : String :=
  let start := moduleWalk env repo_root file.length (parentOf file) [stemOf (basenameOf file)]
  let parts :=
    if start.1 = repo_root && env.pathExists (start.1 ++ "/__init__.py") then
      start.2 ++ [basenameOf start.1]
    else start.2
  String.intercalate "." parts.reverse

/-- The two candidate test paths of `_candidate_test_paths`:
`{tests}/{stem}_test.py` then `{tests}/test_{stem}.py`. -/
def candidatePaths (agent : UTAgent) (scanned : String) : List String :=
  let stem := stemOf (basenameOf scanned)
  let testsRoot := agent.repo_root ++ "/" ++ agent.tests_dir
  [testsRoot ++ "/" ++ stem ++ "_test.py", testsRoot ++ "/" ++ "test_" ++ stem ++ ".py"]

/-- `_find_test_file`: the first existing candidate. -/
def findTestFile (env : SysEnv) (agent : UTAgent) (scanned : String) : Option String :=
  (candidatePaths agent scanned).find? (fun p => env.pathExists p)

/-- `UnitTestEvaluationAgent.evaluate`.  `python` stands for
`sys.executable`. -/
def evaluate (env : SysEnv) (agent : UTAgent) (scanned_file_path : String) :
    UnitTestEvalResult :=
  let scanned := scanned_file_path
  if !env.pathExists scanned then
    ⟨scanned, "", "none", false, 2, "", "", "Scanned file does not exist."⟩
  else
    match findTestFile env agent scanned with
    | none =>
      let cands := candidatePaths agent scanned
      ⟨scanned, "", "none", false, 3, "", "",
        "Unit test not found in " ++ agent.tests_dir ++ ". Tried: " ++
          String.intercalate ", " cands⟩
    | some tf =>
      let text := env.readFile tf
      let runner := decideRunner text (basenameOf tf)
      let cmd :=
        if looks_like_pytest_test text (basenameOf tf) then ["python", "-m", "pytest", tf]
        else if looks_like_relative_import_test text then
          ["python", "-m", module_name_for env agent.repo_root tf]
        else ["python", tf]
      match env.runProc cmd with
      | .timedOut out err =>
        ⟨scanned, tf, runner, false, 124, out, err,
          "Timed out after " ++ toString agent.timeout_seconds ++ "s running: " ++
            String.intercalate " " cmd⟩
      | .done rc out err =>
        let passed := rc = 0
        ⟨scanned, tf, runner, passed, rc, out, err,
          if passed then "OK"
          else "Failed (exit=" ++ toString rc ++ "). Command: " ++ String.intercalate " " cmd⟩

/-! ## Version-control publishing (`GitPushAgent`, git_push_agent.py)

The subprocess boundary is a parameter `proc` returning raw stdout on a
zero exit status, or the `CalledProcessError` data on a nonzero one.
`_run` strips the stdout. -/

/-- `GitPushAgent._run`: run the command, raise on a nonzero exit status,
return stripped stdout. -/
def gitRun (proc : List String → Except String String) (cmd : List String) :
    Except String String :=
  match proc cmd with
  | .error e => .error e
  | .ok out => .ok (strStrip out)

/-- The staged-diff inspection command of `_has_staged_changes`. -/
def stagedDiffCmd : List String := ["git", "diff", "--cached", "--name-only"]

/-- The commit command of `commit`. -/
def commitCmd (message : String) : List String := ["git", "commit", "-m", message]

/-- `GitPushAgent.commit`, instrumented with the list of git commands it
invokes: inspect the staged-diff name list; if it is empty return without
committing; otherwise run `git commit -m message`. -/
def commit (proc : List String → Except String String) (message : String) :
    Except String Unit × List (List String) :=
  match gitRun proc stagedDiffCmd with
  | .error e => (.error e, [stagedDiffCmd])
  | .ok out =>
    if strStrip out = "" then (.ok (), [stagedDiffCmd])
    else
      match gitRun proc (commitCmd message) with
      | .error e => (.error e, [stagedDiffCmd, commitCmd message])
      | .ok _ => (.ok (), [stagedDiffCmd, commitCmd message])

/-! ## Helper lemmas -/

theorem fsWrite_self (fs : FS) (p c : String) : fsWrite fs p c p = some c := by
  simp [fsWrite]

theorem fsWrite_ne (fs : FS) (p c q : String) (h : q ≠ p) : fsWrite fs p c q = fs q := by
  simp [fsWrite, h]

theorem append_bak_ne (p : String) : p ++ ".bak" ≠ p := by
  intro h
  have hl := congrArg String.length h
  rw [String.length_append, show (".bak" : String).length = 4 from rfl] at hl
  omega

/-! ## C3 — decision fusion -/

/-- C3: the fused verdict is the logical OR of the detector's `has_bug`,
the reviewer's `confirmed_bug` and the reviewer's `corrected_has_bug`,
each normalized by the same `_as_bool` coercion whichever field the value
came from; in particular `fuse(false,false,false) = false` and any single
true input yields true. -/
theorem fuse_verdict_is_or :
    (∀ d b c : JVal,
      bug_exists (.jobj [("confirmed_bug", b), ("corrected_has_bug", c)])
        (.jobj [("has_bug", d)]) = (as_bool d || as_bool b || as_bool c)) ∧
    bug_exists (.jobj [("confirmed_bug", .jbool false), ("corrected_has_bug", .jbool false)])
        (.jobj [("has_bug", .jbool false)]) = false := by
  constructor
  · intro d b c
    have h : bug_exists (.jobj [("confirmed_bug", b), ("corrected_has_bug", c)])
        (.jobj [("has_bug", d)]) = (as_bool b || as_bool c || as_bool d) := rfl
    rw [h]
    generalize as_bool b = x
    generalize as_bool c = y
    generalize as_bool d = z
    revert x y z
    decide
  · rfl

/-! ## C8 — commit is a no-op with nothing staged -/

/-- C8: `commit` first runs the staged-diff name listing; when that output
is empty it returns successfully without invoking `git commit`, and the
commit command is invoked only when the listing shows at least one staged
file. -/
theorem commit_skips_when_nothing_staged :
    (∀ (proc : List String → Except String String) (msg out : String),
      proc stagedDiffCmd = .ok out → strStrip out = "" →
      commit proc msg = (.ok (), [stagedDiffCmd])) ∧
    (∀ (proc : List String → Except String String) (msg : String),
      commitCmd msg ∈ (commit proc msg).2 →
      ∃ out, proc stagedDiffCmd = .ok out ∧ strStrip out ≠ "") := by
  constructor
  · intro proc msg out hok hempty
    have h2 : strStrip (strStrip out) = "" := by rw [hempty]; rfl
    simp [commit, gitRun, hok, h2]
  · intro proc msg hmem
    simp only [commit, gitRun] at hmem
    cases hok : proc stagedDiffCmd with
    | error e =>
      rw [hok] at hmem
      simp [commitCmd, stagedDiffCmd] at hmem
    | ok out =>
      rw [hok] at hmem
      by_cases hempty : strStrip (strStrip out) = ""
      · simp [hempty, commitCmd, stagedDiffCmd] at hmem
      · exact ⟨out, rfl, fun h => hempty (by rw [h]; rfl)⟩

/-- Witness for C8: a concrete subprocess model whose staged-diff listing
is whitespace-only; `commit` returns success having run only the diff
command. -/
theorem commit_skips_when_nothing_staged_witness :
    (fun c => if c = stagedDiffCmd then (Except.ok "  \n" : Except String String)
        else .ok "done") stagedDiffCmd = Except.ok "  \n" ∧
    strStrip "  \n" = "" ∧
    commit (fun c => if c = stagedDiffCmd then (Except.ok "  \n" : Except String String)
        else .ok "done") "msg" = (.ok (), [stagedDiffCmd]) :=
  ⟨by simp, by rfl,
    commit_skips_when_nothing_staged.1
      (fun c => if c = stagedDiffCmd then (Except.ok "  \n" : Except String String)
        else .ok "done")
      "msg" "  \n" (by simp) (by rfl)⟩

/-! ## C9 — fix_bug skips without touching anything when no bug -/

/-- C9: when the target file exists and the report's `has_bug` coerces to
`False` under Python truthiness, `fix_bug` returns the `skipped` status,
does not call the reasoning service, and leaves the whole file system
(backup path included) unchanged. -/
theorem fix_bug_skips_when_no_bug (hash : String → String)
    (d : List Char → Option JVal) (we : String → String → String) (fs : FS)
    (llm : LLMOutcome) (report : JVal) (dry : Bool) (path original : String)
    (hfpS : jgetD report "file_path" .jnull = .jstr path)
    (hfpT : pyBool (jgetD report "file_path" .jnull) = true)
    (hfs : fs path = some original)
    (hbug : pyBool (jgetD report "has_bug" (.jbool false)) = false) :
    fix_bug hash d we fs llm report dry = some (.skipped, fs, false) ∧
    specFixResult .skipped = some .Skipped := by
  refine ⟨?_, rfl⟩
  have h1 : pyBool (JVal.jstr path) = true := by rw [← hfpS]; exact hfpT
  simp [fix_bug, hfpS, h1, hfs, hbug]

/-- Witness for C9: a concrete report with `has_bug = ""` (falsy) against
a one-file file system. -/
theorem fix_bug_skips_when_no_bug_witness :
    jgetD (.jobj [("file_path", .jstr "a.py"), ("has_bug", .jstr "")]) "file_path" .jnull
        = .jstr "a.py" ∧
    (fun p => if p = "a.py" then some "orig" else none : FS) "a.py" = some "orig" ∧
    pyBool (jgetD (.jobj [("file_path", .jstr "a.py"), ("has_bug", .jstr "")]) "has_bug"
        (.jbool false)) = false ∧
    fix_bug (fun s => s) (fun _ => none) (fun _ n => n)
        (fun p => if p = "a.py" then some "orig" else none) (.response "")
        (.jobj [("file_path", .jstr "a.py"), ("has_bug", .jstr "")]) false
      = some (.skipped, (fun p => if p = "a.py" then some "orig" else none : FS), false) :=
  ⟨by rfl, by rfl, by rfl,
    (fix_bug_skips_when_no_bug (fun s => s) (fun _ => none) (fun _ n => n)
      (fun p => if p = "a.py" then some "orig" else none) (.response "")
      (.jobj [("file_path", .jstr "a.py"), ("has_bug", .jstr "")]) false "a.py" "orig"
      (by rfl) (by rfl) (by rfl) (by rfl)).1⟩

/-! ## C7 — runner selection -/

/-- C7: a test file containing `def test_addition` and no relative import
selects the pytest runner; one containing `from .. import target` and no
pytest marker selects the module runner; one with neither selects the
plain-file runner; and the pytest check (framework import, `test`-prefixed
function, or `test_`/`_test.py` file name) takes priority over the
relative-import check. -/
theorem runner_selection_priority :
    decideRunner "def test_addition():\n    assert add(1, 2) == 3\n".data
        "addition_test.py" = "pytest" ∧
    decideRunner "from .. import target\nprint(target.f())\n".data "driver.py"
        = "python-module" ∧
    decideRunner "print(2 + 2)\n".data "plain.py" = "python-file" ∧
    (∀ (text : List Char) (name : String),
      looks_like_pytest_test text name = true → decideRunner text name = "pytest") := by
  refine ⟨by rfl, by rfl, by rfl, ?_⟩
  intro text name h
  simp [decideRunner, h]

/-- Witness for C7: a file carrying both a pytest marker and a
relative import is classified pytest — the pytest check wins. -/
theorem runner_selection_priority_witness :
    looks_like_pytest_test "import pytest\nfrom .. import target\n".data "driver.py" = true ∧
    decideRunner "import pytest\nfrom .. import target\n".data "driver.py" = "pytest" :=
  ⟨by rfl,
    runner_selection_priority.2.2.2 "import pytest\nfrom .. import target\n".data "driver.py"
      (by rfl)⟩

/-! ## C10 — evaluate error codes -/

/-- C10: `evaluate` on a missing scanned file returns runner `"none"`,
`passed = false`, an empty `test_file` and exit code 2; when the scanned
file exists but neither candidate test path does, exit code 3 (still
runner `"none"`, not passed); a test-subprocess timeout yields exit code
124; and the three codes are pairwise distinct. -/
theorem evaluate_error_codes :
    (∀ (env : SysEnv) (agent : UTAgent) (p : String), env.pathExists p = false →
      evaluate env agent p = ⟨p, "", "none", false, 2, "", "", "Scanned file does not exist."⟩) ∧
    (∀ (env : SysEnv) (agent : UTAgent) (p : String), env.pathExists p = true →
      (∀ c ∈ candidatePaths agent p, env.pathExists c = false) →
      (evaluate env agent p).runner = "none" ∧ (evaluate env agent p).test_file = "" ∧
        (evaluate env agent p).passed = false ∧ (evaluate env agent p).exit_code = 3) ∧
    (∀ (env : SysEnv) (agent : UTAgent) (p tf : String) (out err : String),
      env.pathExists p = true → findTestFile env agent p = some tf →
      (∀ cmd, env.runProc cmd = .timedOut out err) →
      (evaluate env agent p).exit_code = 124 ∧ (evaluate env agent p).passed = false) ∧
    ((2 : Int) ≠ 3 ∧ (2 : Int) ≠ 124 ∧ (3 : Int) ≠ 124) := by
  refine ⟨?_, ?_, ?_, by decide⟩
  · intro env agent p h
    simp [evaluate, h]
  · intro env agent p h hc
    have hfind : findTestFile env agent p = none := by
      simp only [findTestFile, List.find?_eq_none]
      intro c hmem
      rw [hc c hmem]
      simp
    simp [evaluate, h, hfind]
  · intro env agent p tf out err h hfind hrun
    simp [evaluate, h, hfind, hrun]

/-- Witness for C10: concrete environments exercising the three error
paths (missing scanned file; present scanned file with no candidate test;
a timing-out test run). -/
theorem evaluate_error_codes_witness :
    evaluate ⟨fun _ => false, fun _ => [], fun _ => .done 0 "" ""⟩
        ⟨"/repo", "python_testcases", 120⟩ "/repo/p/x.py"
      = ⟨"/repo/p/x.py", "", "none", false, 2, "", "", "Scanned file does not exist."⟩ ∧
    (evaluate ⟨fun q => q = "/repo/p/x.py", fun _ => [], fun _ => .done 0 "" ""⟩
        ⟨"/repo", "python_testcases", 120⟩ "/repo/p/x.py").exit_code = 3 ∧
    (evaluate ⟨fun _ => true, fun _ => "import pytest\n".data, fun _ => .timedOut "" ""⟩
        ⟨"/repo", "python_testcases", 120⟩ "/repo/p/x.py").exit_code = 124 :=
  ⟨evaluate_error_codes.1 ⟨fun _ => false, fun _ => [], fun _ => .done 0 "" ""⟩
      ⟨"/repo", "python_testcases", 120⟩ "/repo/p/x.py" (by rfl),
    (evaluate_error_codes.2.1 ⟨fun q => q = "/repo/p/x.py", fun _ => [], fun _ => .done 0 "" ""⟩
      ⟨"/repo", "python_testcases", 120⟩ "/repo/p/x.py" (by simp) (by decide)).2.2.2,
    (evaluate_error_codes.2.2.1
      ⟨fun _ => true, fun _ => "import pytest\n".data, fun _ => .timedOut "" ""⟩
      ⟨"/repo", "python_testcases", 120⟩ "/repo/p/x.py"
      "/repo/python_testcases/x_test.py" "" "" (by rfl) (by rfl) (fun cmd => rfl)).1⟩

/-! ## C2 — identical fingerprints mean NoChange and no mutation -/

/-- C2: when the target file exists, the report flags a bug, the model
response yields a proposed body that is non-empty after fence-stripping
(the contract's precondition), and the fingerprint of the proposed body
equals the fingerprint of the original, `fix_bug` returns the `no_change`
status — mapped to the spec's `NoChange` — with the file system returned
untouched: no write, no backup, the file on disk byte-identical to before
the call. -/
theorem fix_bug_no_change (hash : String → String) (d : List Char → Option JVal)
    (we : String → String → String) (fs : FS) (text : String) (report : JVal)
    (dry : Bool) (path original : String) (plan : JVal) (body : String)
    (hfpS : jgetD report "file_path" .jnull = .jstr path)
    (hfpT : pyBool (jgetD report "file_path" .jnull) = true)
    (hfs : fs path = some original)
    (hbug : pyBool (jgetD report "has_bug" (.jbool false)) = true)
    (hdec : d (extract_json_candidate text.data) = some plan)
    (hfc : fixedCodeOf plan = some body)
    (hne : pyStrip body.data ≠ [])
    (hhash : hash body = hash original) :
    fix_bug hash d we fs (.response text) report dry = some (.noChange, fs, true) ∧
    specFixResult .noChange = some .NoChange := by
  refine ⟨?_, rfl⟩
  have h1 : pyBool (JVal.jstr path) = true := by rw [← hfpS]; exact hfpT
  have h2 : (pyStrip body.data).isEmpty = false := by
    cases hcase : pyStrip body.data with
    | nil => exact absurd hcase hne
    | cons a l => rfl
  simp [fix_bug, hfpS, h1, hfs, hbug, hdec, hfc, h2, hhash]

/-- Witness for C2: the model proposes exactly the original body; the file
system comes back untouched. -/
theorem fix_bug_no_change_witness :
    fixedCodeOf (.jobj [("fixed_code", .jstr "x = 1")]) = some "x = 1" ∧
    (fun p => if p = "a.py" then some "x = 1" else none : FS) "a.py" = some "x = 1" ∧
    fix_bug (fun s => s) (fun _ => some (.jobj [("fixed_code", .jstr "x = 1")]))
        (fun _ n => n) (fun p => if p = "a.py" then some "x = 1" else none)
        (.response "{}") (.jobj [("file_path", .jstr "a.py"), ("has_bug", .jbool true)]) false
      = some (.noChange, (fun p => if p = "a.py" then some "x = 1" else none : FS), true) :=
  ⟨by rfl, by rfl,
    (fix_bug_no_change (fun s => s) (fun _ => some (.jobj [("fixed_code", .jstr "x = 1")]))
      (fun _ n => n) (fun p => if p = "a.py" then some "x = 1" else none) "{}"
      (.jobj [("file_path", .jstr "a.py"), ("has_bug", .jbool true)]) false "a.py" "x = 1"
      (.jobj [("fixed_code", .jstr "x = 1")]) "x = 1"
      (by rfl) (by rfl) (by rfl) (by rfl) (by rfl) (by rfl) (by decide) (by rfl)).1⟩

/-! ## C4 — empty proposed body is a parse error, file untouched -/

/-- C4: when the target file exists and the proposed fix body is empty
after fence-stripping, `fix_bug` returns the `no_fixed_code` status —
mapped by the spec to `ParseError "no fixed code produced"` — with the
file system returned untouched. -/
theorem fix_bug_empty_fix_parse_error (hash : String → String)
    (d : List Char → Option JVal) (we : String → String → String) (fs : FS)
    (text : String) (report : JVal) (dry : Bool) (path original : String)
    (plan : JVal) (body : String)
    (hfpS : jgetD report "file_path" .jnull = .jstr path)
    (hfpT : pyBool (jgetD report "file_path" .jnull) = true)
    (hfs : fs path = some original)
    (hbug : pyBool (jgetD report "has_bug" (.jbool false)) = true)
    (hdec : d (extract_json_candidate text.data) = some plan)
    (hfc : fixedCodeOf plan = some body)
    (hempty : pyStrip body.data = []) :
    fix_bug hash d we fs (.response text) report dry = some (.noFixedCode, fs, true) ∧
    specFixResult .noFixedCode = some (.ParseError "no fixed code produced") := by
  refine ⟨?_, rfl⟩
  have h1 : pyBool (JVal.jstr path) = true := by rw [← hfpS]; exact hfpT
  have h2 : (pyStrip body.data).isEmpty = true := by rw [hempty]; rfl
  simp [fix_bug, hfpS, h1, hfs, hbug, hdec, hfc, h2]

/-- Witness for C4: a fix plan whose `fixed_code` is an empty fenced
block. -/
theorem fix_bug_empty_fix_parse_error_witness :
    fixedCodeOf (.jobj [("fixed_code", .jstr "  ")]) = some "" ∧
    pyStrip "".data = [] ∧
    fix_bug (fun s => s) (fun _ => some (.jobj [("fixed_code", .jstr "  ")]))
        (fun _ n => n) (fun p => if p = "a.py" then some "x = 1" else none)
        (.response "{}") (.jobj [("file_path", .jstr "a.py"), ("has_bug", .jbool true)]) false
      = some (.noFixedCode, (fun p => if p = "a.py" then some "x = 1" else none : FS), true) :=
  ⟨by rfl, by rfl,
    (fix_bug_empty_fix_parse_error (fun s => s)
      (fun _ => some (.jobj [("fixed_code", .jstr "  ")]))
      (fun _ n => n) (fun p => if p = "a.py" then some "x = 1" else none) "{}"
      (.jobj [("file_path", .jstr "a.py"), ("has_bug", .jbool true)]) false "a.py" "x = 1"
      (.jobj [("fixed_code", .jstr "  ")]) ""
      (by rfl) (by rfl) (by rfl) (by rfl) (by rfl) (by rfl) (by rfl)).1⟩

/-! ## C1 — failed write is detected, rolled back, and reported -/

/-- C1: when the fingerprints of the proposed body and the original
differ, `fix_bug` (not in dry-run) first copies the original to the
backup path `path ++ ".bak"`, writes, and re-reads; if the re-read
content's fingerprint equals the original's, it restores the file from
the backup and returns the `write_failed` status — the spec's
`WriteFailed` — and the file on disk afterwards holds exactly the
original body (every other path is untouched except the backup, which
also holds the original). -/
theorem fix_bug_write_failed_rolls_back (hash : String → String)
    (d : List Char → Option JVal) (we : String → String → String) (fs : FS)
    (text : String) (report : JVal) (path original : String) (plan : JVal) (body : String)
    (hfpS : jgetD report "file_path" .jnull = .jstr path)
    (hfpT : pyBool (jgetD report "file_path" .jnull) = true)
    (hfs : fs path = some original)
    (hbug : pyBool (jgetD report "has_bug" (.jbool false)) = true)
    (hdec : d (extract_json_candidate text.data) = some plan)
    (hfc : fixedCodeOf plan = some body)
    (hne : pyStrip body.data ≠ [])
    (hhash : hash body ≠ hash original)
    (hwe : hash (we original body) = hash original) :
    ∃ fsF, fix_bug hash d we fs (.response text) report false = some (.writeFailed, fsF, true) ∧
      fsF path = some original ∧
      fsF (path ++ ".bak") = some original ∧
      (∀ q, q ≠ path → q ≠ path ++ ".bak" → fsF q = fs q) ∧
      specFixResult .writeFailed = some .WriteFailed := by
  have h1 : pyBool (JVal.jstr path) = true := by rw [← hfpS]; exact hfpT
  have h2 : (pyStrip body.data).isEmpty = false := by
    cases hcase : pyStrip body.data with
    | nil => exact absurd hcase hne
    | cons a l => rfl
  have hbak := append_bak_ne path
  have hback : (fsWrite (fsWrite fs (path ++ ".bak") original) path (we original body))
      (path ++ ".bak") = some original := by
    rw [fsWrite_ne _ _ _ _ hbak, fsWrite_self]
  refine ⟨fsWrite (fsWrite (fsWrite fs (path ++ ".bak") original) path (we original body))
    path original, ?_, ?_, ?_, ?_, rfl⟩
  · simp only [fix_bug, hfpS, h1, hfs, hbug, hdec, hfc, h2, hhash, hwe, if_true, if_false,
      Bool.false_eq_true, ite_false, ite_true]
    simp [hbak, hhash, hwe, hback]
  · exact fsWrite_self _ _ _
  · rw [fsWrite_ne _ _ _ _ hbak, fsWrite_ne _ _ _ _ hbak, fsWrite_self]
  · intro q hqp hqb
    rw [fsWrite_ne _ _ _ _ hqp, fsWrite_ne _ _ _ _ hqp, fsWrite_ne _ _ _ _ hqb]

/-- Witness for C1: a read-only target — the write leaves the original in
place, so the re-read fingerprint matches the original and the call rolls
back and reports `write_failed`. -/
theorem fix_bug_write_failed_rolls_back_witness :
    fixedCodeOf (.jobj [("fixed_code", .jstr "y = 2")]) = some "y = 2" ∧
    ("y = 2" : String) ≠ "x = 1" ∧
    (∃ fsF,
      fix_bug (fun s => s) (fun _ => some (.jobj [("fixed_code", .jstr "y = 2")]))
          (fun old _ => old) (fun p => if p = "a.py" then some "x = 1" else none)
          (.response "{}") (.jobj [("file_path", .jstr "a.py"), ("has_bug", .jbool true)])
          false
        = some (.writeFailed, fsF, true) ∧
      fsF "a.py" = some "x = 1" ∧
      fsF ("a.py" ++ ".bak") = some "x = 1" ∧
      (∀ q, q ≠ "a.py" → q ≠ "a.py" ++ ".bak" →
        fsF q = (fun p => if p = "a.py" then some "x = 1" else none : FS) q) ∧
      specFixResult .writeFailed = some .WriteFailed) :=
  ⟨by rfl, by decide,
    fix_bug_write_failed_rolls_back (fun s => s)
      (fun _ => some (.jobj [("fixed_code", .jstr "y = 2")]))
      (fun old _ => old) (fun p => if p = "a.py" then some "x = 1" else none) "{}"
      (.jobj [("file_path", .jstr "a.py"), ("has_bug", .jbool true)]) "a.py" "x = 1"
      (.jobj [("fixed_code", .jstr "y = 2")]) "y = 2"
      (by rfl) (by rfl) (by rfl) (by rfl) (by rfl) (by rfl) (by decide) (by decide) (by rfl)⟩

/-! ## C6 — second-chance recovery carries the excerpt forward -/

theorem lookup_setKey (k : String) (x : JVal) (fs : List (String × JVal)) :
    (setKey k x fs).lookup k = some x := by
  induction fs with
  | nil => simp [setKey]
  | cons hd tl ih =>
    obtain ⟨k', v'⟩ := hd
    by_cases h : k' = k
    · simp [setKey, h]
    · have hbeq : (k == k') = false := by simp [Ne.symm h]
      simp [setKey, h, List.lookup, hbeq, ih]

/-- C6: on an entry whose bug report carries a truthy `error` and a
(string) `raw_response_text`, normalization reruns the recoverer on that
raw text; when decoding succeeds with a record lacking a truthy
`code_excerpt` while the earlier report has one, the excerpt is copied
into the recovered record (and then reads back as the earlier report's
excerpt); when the earlier report has no truthy excerpt, the recovered
record is returned exactly as decoded — an excerpt is never introduced. -/
theorem normalize_second_chance_excerpt (d : List Char → Option JVal) (entry : JVal)
    (flds : List (String × JVal)) (raw : String)
    (hbr : jgetD entry "bug_report" .jnull = .jobj flds)
    (hbrT : pyBool (jgetD entry "bug_report" .jnull) = true)
    (herr : pyBool (jgetD (.jobj flds) "error" .jnull) = true)
    (hraw : jgetD (.jobj flds) "raw_response_text" .jnull = .jstr raw)
    (hrawT : pyBool (jgetD (.jobj flds) "raw_response_text" .jnull) = true) :
    (∀ rflds, d (extract_json_candidate raw.data) = some (.jobj rflds) →
      pyBool (jgetD (.jobj flds) "code_excerpt" .jnull) = true →
      pyBool (jgetD (.jobj rflds) "code_excerpt" .jnull) = false →
      normalize_bug_report d entry
          = some (jset (.jobj rflds) "code_excerpt" (jgetD (.jobj flds) "code_excerpt" .jnull)) ∧
        jgetD (jset (.jobj rflds) "code_excerpt" (jgetD (.jobj flds) "code_excerpt" .jnull))
            "code_excerpt" .jnull = jgetD (.jobj flds) "code_excerpt" .jnull) ∧
    (∀ r, d (extract_json_candidate raw.data) = some r →
      pyBool (jgetD (.jobj flds) "code_excerpt" .jnull) = false →
      normalize_bug_report d entry = some r) := by
  have hb2 : pyBool (JVal.jobj flds) = true := by rw [← hbr]; exact hbrT
  have hraw2 : pyBool (JVal.jstr raw) = true := by rw [← hraw]; exact hrawT
  constructor
  · intro rflds hdec hex hrex
    constructor
    · simp [normalize_bug_report, hbr, hb2, herr, hrawT, hraw, hraw2, hdec, hex, hrex]
    · simp [jset, jgetD, lookup_setKey]
  · intro r hdec hex
    simp [normalize_bug_report, hbr, hb2, herr, hrawT, hraw, hraw2, hdec, hex]

/-- Witness for C6: a detector report whose raw text holds a recoverable
JSON object without an excerpt; the earlier report's excerpt is carried
forward, and with no earlier excerpt the recovered record is returned
as-is. -/
theorem normalize_second_chance_excerpt_witness :
    (normalize_bug_report (fun _ => some (.jobj [("has_bug", .jbool true)]))
        (.jobj [("bug_report", .jobj [("error", .jstr "bad json"),
          ("raw_response_text", .jstr "oops"), ("code_excerpt", .jstr "code")])])
      = some (jset (.jobj [("has_bug", .jbool true)]) "code_excerpt" (.jstr "code"))) ∧
    (normalize_bug_report (fun _ => some (.jobj [("has_bug", .jbool true)]))
        (.jobj [("bug_report", .jobj [("error", .jstr "bad json"),
          ("raw_response_text", .jstr "oops")])])
      = some (.jobj [("has_bug", .jbool true)])) :=
  ⟨by
    have h := (normalize_second_chance_excerpt
      (fun _ => some (.jobj [("has_bug", .jbool true)]))
      (.jobj [("bug_report", .jobj [("error", .jstr "bad json"),
        ("raw_response_text", .jstr "oops"), ("code_excerpt", .jstr "code")])])
      [("error", .jstr "bad json"), ("raw_response_text", .jstr "oops"),
        ("code_excerpt", .jstr "code")] "oops"
      (by rfl) (by rfl) (by rfl) (by rfl) (by rfl)).1
      [("has_bug", .jbool true)] (by rfl) (by rfl) (by rfl)
    exact h.1,
    (normalize_second_chance_excerpt
      (fun _ => some (.jobj [("has_bug", .jbool true)]))
      (.jobj [("bug_report", .jobj [("error", .jstr "bad json"),
        ("raw_response_text", .jstr "oops")])])
      [("error", .jstr "bad json"), ("raw_response_text", .jstr "oops")] "oops"
      (by rfl) (by rfl) (by rfl) (by rfl) (by rfl)).2
      (.jobj [("has_bug", .jbool true)]) (by rfl) (by rfl)⟩

/-! ## C5 — recovery of fenced payloads, and the no-brace behavior -/

theorem dropWhile_all (p : Char → Bool) (l₁ l₂ : List Char)
    (h : ∀ c ∈ l₁, p c = true) :
    (l₁ ++ l₂).dropWhile p = l₂.dropWhile p := by
  induction l₁ with
  | nil => rfl
  | cons a t ih =>
    rw [List.cons_append, List.dropWhile_cons, if_pos (h a (List.mem_cons_self a t))]
    exact ih (fun c hc => h c (List.mem_cons_of_mem a hc))

theorem dropTrailing_append (Y Z : List Char) (e : Char) (he : isPySpace e = false) :
    dropTrailing ((Y ++ [e]) ++ Z) = (Y ++ [e]) ++ dropTrailing Z := by
  unfold dropTrailing
  rw [List.reverse_append, List.dropWhile_append]
  by_cases h : (Z.reverse.dropWhile isPySpace).isEmpty
  · rw [if_pos h]
    have h2 : Z.reverse.dropWhile isPySpace = [] := by
      cases hc : Z.reverse.dropWhile isPySpace with
      | nil => rfl
      | cons a t => rw [hc] at h; exact absurd h (by simp)
    rw [h2]
    simp [List.reverse_append, List.dropWhile_cons, he]
  · rw [if_neg h]
    simp [List.reverse_append, List.dropWhile_cons, he]

theorem mem_dropTrailing (x : Char) (l : List Char) (h : x ∈ dropTrailing l) : x ∈ l := by
  unfold dropTrailing at h
  rw [List.mem_reverse] at h
  have h2 := List.Sublist.mem h (List.dropWhile_sublist isPySpace)
  rwa [List.mem_reverse] at h2

theorem stripCloseFence_keep_head (q R : List Char) (hlen : 4 ≤ R.length) :
    ∃ B, stripCloseFence (q ++ R) = q ++ B ∧ ∀ c ∈ B, c ∈ R := by
  unfold stripCloseFence
  by_cases h : (['`', '`', '`', '\n'].isPrefixOf (q ++ R).reverse) = true
  · rw [if_pos h]
    refine ⟨(R.reverse.drop 4).reverse, ?_, ?_⟩
    · rw [List.reverse_append, List.drop_append_of_le_length (by simpa using hlen),
        List.reverse_append, List.reverse_reverse]
    · intro c hc
      rw [List.mem_reverse] at hc
      have h2 := List.Sublist.mem hc (List.drop_sublist 4 R.reverse)
      rwa [List.mem_reverse] at h2
  · rw [if_neg h]
    exact ⟨R, rfl, fun c hc => hc⟩

theorem pyStrip_brace_append (mid B : List Char) :
    pyStrip (('{' :: (mid ++ ['}'])) ++ B) = ('{' :: (mid ++ ['}'])) ++ dropTrailing B := by
  unfold pyStrip
  have h1 : (('{' :: (mid ++ ['}'])) ++ B).dropWhile isPySpace
      = ('{' :: (mid ++ ['}'])) ++ B := by
    rw [List.cons_append, List.dropWhile_cons]
    simp [isPySpace]
  rw [h1]
  have h2 : ('{' :: (mid ++ ['}'])) ++ B = (('{' :: mid) ++ ['}']) ++ B := by simp
  rw [h2, dropTrailing_append _ _ _ (by decide)]
  simp

theorem braceSlice_of_shape (mid B : List Char) (hB : ∀ c ∈ B, c ≠ '}') :
    braceSlice (('{' :: (mid ++ ['}'])) ++ B) = some ('{' :: (mid ++ ['}'])) := by
  unfold braceSlice
  have hcons : ('{' :: (mid ++ ['}'])) ++ B = '{' :: (mid ++ ('}' :: B)) := by simp
  rw [hcons]
  have hdw : ('{' :: (mid ++ ('}' :: B))).dropWhile (fun c => c ≠ '{')
      = '{' :: (mid ++ ('}' :: B)) := by
    rw [List.dropWhile_cons]
    simp
  rw [hdw]
  have hmem : '}' ∈ mid ++ ('}' :: B) :=
    List.mem_append_right _ (List.mem_cons_self _ _)
  show (if '}' ∈ mid ++ ('}' :: B) then
      some ((('{' :: (mid ++ ('}' :: B))).reverse.dropWhile (fun ch => ch ≠ '}')).reverse)
    else none) = some ('{' :: (mid ++ ['}']))
  rw [if_pos hmem]
  have hrev : ('{' :: (mid ++ ('}' :: B))).reverse
      = B.reverse ++ ('}' :: (mid.reverse ++ ['{'])) := by
    simp
  rw [hrev, dropWhile_all _ _ _ (fun c hc => by
    rw [List.mem_reverse] at hc
    simp [hB c hc])]
  rw [List.dropWhile_cons]
  simp

theorem candidate_of_wrap (mid prose : List Char) (hrb : ∀ c ∈ prose, c ≠ '}') :
    braceSlice (strip_code_fences
        (['`', '`', '`', 'j', 's', 'o', 'n', '\n'] ++ ('{' :: (mid ++ ['}'])) ++
          ['\n', '`', '`', '`'] ++ prose))
      = some ('{' :: (mid ++ ['}'])) := by
  have hps : pyStrip (['`', '`', '`', 'j', 's', 'o', 'n', '\n'] ++ ('{' :: (mid ++ ['}'])) ++
      ['\n', '`', '`', '`'] ++ prose)
      = ['`', '`', '`', 'j', 's', 'o', 'n', '\n'] ++ ('{' :: (mid ++ ['}'])) ++
        (['\n', '`', '`', '`'] ++ dropTrailing prose) := by
    unfold pyStrip
    have h1 : (['`', '`', '`', 'j', 's', 'o', 'n', '\n'] ++ ('{' :: (mid ++ ['}'])) ++
        ['\n', '`', '`', '`'] ++ prose).dropWhile isPySpace
        = ['`', '`', '`', 'j', 's', 'o', 'n', '\n'] ++ ('{' :: (mid ++ ['}'])) ++
          ['\n', '`', '`', '`'] ++ prose := rfl
    rw [h1]
    have h2 : ['`', '`', '`', 'j', 's', 'o', 'n', '\n'] ++ ('{' :: (mid ++ ['}'])) ++
        ['\n', '`', '`', '`'] ++ prose
        = ((['`', '`', '`', 'j', 's', 'o', 'n', '\n'] ++ ('{' :: (mid ++ ['}'])) ++
          ['\n', '`', '`']) ++ ['`']) ++ prose := by simp
    rw [h2, dropTrailing_append _ _ _ (by decide)]
    simp
  have hopen : stripOpenFence (['`', '`', '`', 'j', 's', 'o', 'n', '\n'] ++
      ('{' :: (mid ++ ['}'])) ++ (['\n', '`', '`', '`'] ++ dropTrailing prose))
      = ('{' :: (mid ++ ['}'])) ++ (['\n', '`', '`', '`'] ++ dropTrailing prose) := rfl
  obtain ⟨B, hclose, hmemB⟩ := stripCloseFence_keep_head ('{' :: (mid ++ ['}']))
    (['\n', '`', '`', '`'] ++ dropTrailing prose) (by simp)
  have hsf : strip_code_fences (['`', '`', '`', 'j', 's', 'o', 'n', '\n'] ++
      ('{' :: (mid ++ ['}'])) ++ ['\n', '`', '`', '`'] ++ prose)
      = ('{' :: (mid ++ ['}'])) ++ dropTrailing B := by
    unfold strip_code_fences
    rw [hps]
    rw [if_pos (by rfl)]
    have hassoc : ['`', '`', '`', 'j', 's', 'o', 'n', '\n'] ++ ('{' :: (mid ++ ['}'])) ++
        (['\n', '`', '`', '`'] ++ dropTrailing prose)
        = ['`', '`', '`', 'j', 's', 'o', 'n', '\n'] ++
          (('{' :: (mid ++ ['}'])) ++ (['\n', '`', '`', '`'] ++ dropTrailing prose)) := by
      simp
    rw [hassoc] at hopen ⊢
    rw [hopen, hclose, pyStrip_brace_append]
  rw [hsf]
  apply braceSlice_of_shape
  intro c hc
  have hc2 := hmemB c (mem_dropTrailing c B hc)
  rcases List.mem_append.mp hc2 with h4 | hpro
  · fin_cases h4 <;> decide
  · exact hrb c (mem_dropTrailing c prose hpro)

theorem candidate_of_bare (mid : List Char) :
    strip_code_fences ('{' :: (mid ++ ['}'])) = '{' :: (mid ++ ['}']) ∧
    braceSlice (strip_code_fences ('{' :: (mid ++ ['}'])))
      = some ('{' :: (mid ++ ['}'])) := by
  have hps : pyStrip ('{' :: (mid ++ ['}'])) = '{' :: (mid ++ ['}']) := by
    have := pyStrip_brace_append mid []
    simpa using this
  have hsf : strip_code_fences ('{' :: (mid ++ ['}'])) = '{' :: (mid ++ ['}']) := by
    unfold strip_code_fences
    rw [hps]
    rw [if_neg (by simp [List.isPrefixOf])]
  refine ⟨hsf, ?_⟩
  rw [hsf]
  have := braceSlice_of_shape mid [] (by simp)
  simpa using this

/-- C5 counterexample: the claim says the recoverer "decodes the trimmed
text as-is" when no opening brace is followed by a closing brace, but
`extract_json_from_text` (fix_from_report.py) returns `none` on such
input without attempting any decode: on `"hello"` with an always-succeeding
decoder it yields `none`, not the decoder's result on the trimmed text. -/
theorem recoverer_no_brace_counterexample :
    extract_json_from_text (fun _ => some (.jobj [("ok", .jbool true)])) "hello" = none ∧
    (fun _ => some (JVal.jobj [("ok", JVal.jbool true)]) : List Char → Option JVal)
        (pyStrip "hello".data) = some (.jobj [("ok", .jbool true)]) ∧
    (none : Option JVal) ≠ some (.jobj [("ok", .jbool true)]) :=
  ⟨rfl, rfl, by simp⟩

/-- C5 (amended): for every JSON-object payload `'{' :: mid ++ ['}']`,
recovery of the payload wrapped in a ```` ```json ```` fence with trailing
brace-free prose yields the same candidate — hence the same decoded
record — as recovery of the bare payload, for the candidate-producing
recoverers (`_clean_json`, `_extract_json`, `_extract_json_from_text`)
and for `extract_json_from_text` alike; and when the fence-stripped text
contains no opening brace followed by a later closing brace, the
candidate-producing recoverers hand the trimmed text itself to the
decoder, while `extract_json_from_text` instead returns `none` without
decoding. -/
theorem recoverer_fenced_payload_equiv (d : List Char → Option JVal)
    (mid prose : List Char) (hrb : ∀ c ∈ prose, c ≠ '}') :
    extract_json_candidate (['`', '`', '`', 'j', 's', 'o', 'n', '\n'] ++
        ('{' :: (mid ++ ['}'])) ++ ['\n', '`', '`', '`'] ++ prose)
      = '{' :: (mid ++ ['}']) ∧
    extract_json_candidate ('{' :: (mid ++ ['}'])) = '{' :: (mid ++ ['}']) ∧
    extract_json_from_text d (String.mk (['`', '`', '`', 'j', 's', 'o', 'n', '\n'] ++
        ('{' :: (mid ++ ['}'])) ++ ['\n', '`', '`', '`'] ++ prose))
      = d ('{' :: (mid ++ ['}'])) ∧
    extract_json_from_text d (String.mk ('{' :: (mid ++ ['}'])))
      = d ('{' :: (mid ++ ['}'])) ∧
    (∀ cs, braceSlice (strip_code_fences cs) = none →
      extract_json_candidate cs = strip_code_fences cs) ∧
    (∀ (d2 : List Char → Option JVal) (text : String), text ≠ "" →
      braceSlice (strip_code_fences text.data) = none →
      extract_json_from_text d2 text = none) := by
  refine ⟨?_, ?_, ?_, ?_, ?_, ?_⟩
  · unfold extract_json_candidate
    rw [candidate_of_wrap mid prose hrb]
    rfl
  · unfold extract_json_candidate
    rw [(candidate_of_bare mid).2]
    rfl
  · unfold extract_json_from_text
    rw [if_neg (by simp [String.ext_iff])]
    rw [show (String.mk (['`', '`', '`', 'j', 's', 'o', 'n', '\n'] ++
        ('{' :: (mid ++ ['}'])) ++ ['\n', '`', '`', '`'] ++ prose)).data
      = ['`', '`', '`', 'j', 's', 'o', 'n', '\n'] ++
        ('{' :: (mid ++ ['}'])) ++ ['\n', '`', '`', '`'] ++ prose from rfl]
    rw [candidate_of_wrap mid prose hrb]
  · unfold extract_json_from_text
    rw [if_neg (by simp [String.ext_iff])]
    rw [show (String.mk ('{' :: (mid ++ ['}']))).data = '{' :: (mid ++ ['}']) from rfl]
    rw [(candidate_of_bare mid).2]
  · intro cs h
    simp [extract_json_candidate, h]
  · intro d2 text ht h
    simp [extract_json_from_text, ht, h]

/-- Witness for C5 (amended): a concrete fenced payload with trailing
prose recovers to the same record as the bare payload, and a concrete
brace-free text exhibits both no-brace behaviors. -/
theorem recoverer_fenced_payload_equiv_witness :
    extract_json_candidate (['`', '`', '`', 'j', 's', 'o', 'n', '\n'] ++
        ('{' :: ("\"hasBug\": true".data ++ ['}'])) ++ ['\n', '`', '`', '`'] ++
        " Extra prose.".data)
      = '{' :: ("\"hasBug\": true".data ++ ['}']) ∧
    extract_json_candidate ('{' :: ("\"hasBug\": true".data ++ ['}']))
      = '{' :: ("\"hasBug\": true".data ++ ['}']) ∧
    braceSlice (strip_code_fences "no json here".data) = none ∧
    extract_json_candidate "no json here".data = strip_code_fences "no json here".data ∧
    extract_json_from_text (fun cs => some (.jstr (String.mk cs))) "no json here" = none :=
  ⟨(recoverer_fenced_payload_equiv (fun cs => some (.jstr (String.mk cs)))
      "\"hasBug\": true".data " Extra prose.".data (by decide)).1,
    (recoverer_fenced_payload_equiv (fun cs => some (.jstr (String.mk cs)))
      "\"hasBug\": true".data " Extra prose.".data (by decide)).2.1,
    by rfl,
    (recoverer_fenced_payload_equiv (fun cs => some (.jstr (String.mk cs)))
      "\"hasBug\": true".data " Extra prose.".data (by decide)).2.2.2.2.1
      "no json here".data (by rfl),
    (recoverer_fenced_payload_equiv (fun cs => some (.jstr (String.mk cs)))
      "\"hasBug\": true".data " Extra prose.".data (by decide)).2.2.2.2.2
      (fun cs => some (.jstr (String.mk cs))) "no json here" (by decide) (by rfl)⟩

end Masque
